import Mathlib

/-!
Verification of the `mylib` evdev/ioctl binding.

The definitions below are a shallow embedding of the Go sources:

* `linux/ioctl` (request-code packing/unpacking, `IOC`, `IOC_DIR`,
  `IOC_TYPE`, `IOC_NR`, `IOC_SIZE`),
* `linux/input` (`EVIOCGBIT`, `TestBit`, `MaxCodes`, `Device.Events`,
  `Device.Codes`, `Device.ID`, `NewDevice`, `Devices`).

Go `uint` values are modelled as `Nat` with an explicit `% 2 ^ 64`
wherever a Go operation could wrap.  Fallible operations are modelled
with `Option`/`Except`; a Go runtime panic (out-of-range slice index)
is modelled by a dedicated `crash` outcome or by `Option.none`.
Kernel responses and the filesystem are oracle parameters, since they
are outside the program.
-/

namespace Mylib

/-! ### `linux/ioctl` constants (from `lib.go` / the ioctl package) -/

def IOC_NRBITS : Nat := 8

def IOC_TYPEBITS : Nat := 8

def IOC_SIZEBITS : Nat := 14

def IOC_DIRBITS : Nat := 2

def IOC_NRMASK : Nat := (1 <<< IOC_NRBITS) - 1

def IOC_TYPEMASK : Nat := (1 <<< IOC_TYPEBITS) - 1

def IOC_SIZEMASK : Nat := (1 <<< IOC_SIZEBITS) - 1

def IOC_DIRMASK : Nat := (1 <<< IOC_DIRBITS) - 1

def IOC_NRSHIFT : Nat := 0

def IOC_TYPESHIFT : Nat := IOC_NRSHIFT + IOC_NRBITS

def IOC_SIZESHIFT : Nat := IOC_TYPESHIFT + IOC_TYPEBITS

def IOC_DIRSHIFT : Nat := IOC_SIZESHIFT + IOC_SIZEBITS

def IOC_NONE : Nat := 0

def IOC_WRITE : Nat := 1

def IOC_READ : Nat := 2

/-- Go `func IOC(dir, typ, nr, size uint) uint`:
`dir<<IOC_DIRSHIFT | typ<<IOC_TYPESHIFT | nr<<IOC_NRSHIFT | size<<IOC_SIZESHIFT`.
Each shift is performed on a 64-bit Go `uint`, hence the `% 2 ^ 64`. -/
def IOC (dir typ nr size : Nat) : Nat :=
  ((dir <<< IOC_DIRSHIFT) % 2 ^ 64) |||
  ((typ <<< IOC_TYPESHIFT) % 2 ^ 64) |||
  ((nr <<< IOC_NRSHIFT) % 2 ^ 64) |||
  ((size <<< IOC_SIZESHIFT) % 2 ^ 64)

/-- Go `func IOC_DIR(nr uint) uint`: `nr >> IOC_DIRSHIFT & IOC_DIRMASK`. -/
def IOC_DIR (nr : Nat) : Nat :=
  (nr >>> IOC_DIRSHIFT) &&& IOC_DIRMASK

/-- Go `func IOC_TYPE(nr uint) uint`: `nr >> IOC_TYPESHIFT & IOC_TYPEMASK`. -/
def IOC_TYPE (nr : Nat) : Nat :=
  (nr >>> IOC_TYPESHIFT) &&& IOC_TYPEMASK

/-- Go `func IOC_NR(nr uint) uint`: `nr >> IOC_NRSHIFT & IOC_NRMASK`. -/
def IOC_NR (nr : Nat) : Nat :=
  (nr >>> IOC_NRSHIFT) &&& IOC_NRMASK

/-- Go `func IOC_SIZE(nr uint) uint`: `nr >> IOC_SIZESHIFT & IOC_SIZEMASK`. -/
def IOC_SIZE (nr : Nat) : Nat :=
  (nr >>> IOC_SIZESHIFT) &&& IOC_SIZEMASK

/-- Go `func EVIOCGBIT(ev, length uint) uint`:
`ioctl.IOC(ioctl.IOC_READ, 'E', 0x20+ev, length)`.  `'E'` is byte `0x45`. -/
def EVIOCGBIT (ev length : Nat) : Nat :=
  IOC IOC_READ 0x45 (0x20 + ev) length

/-! ### Arithmetic normal form of `IOC` -/

theorem IOC_eval (dir typ nr size : Nat)
    (hdir : dir < 4) (htyp : typ < 256) (hnr : nr < 256) (hsize : size < 16384) :
    IOC dir typ nr size =
      2 ^ 30 * dir + (2 ^ 16 * size + (2 ^ 8 * typ + nr)) := by
  have hS : 2 ^ 8 * typ + nr < 2 ^ 16 := by norm_num; omega
  have hD : 2 ^ 16 * size + (2 ^ 8 * typ + nr) < 2 ^ 30 := by norm_num; omega
  have hnr' : nr < 2 ^ 8 := by norm_num; omega
  simp only [IOC, IOC_DIRSHIFT, IOC_SIZESHIFT, IOC_TYPESHIFT, IOC_NRSHIFT,
    IOC_NRBITS, IOC_TYPEBITS, IOC_SIZEBITS, IOC_DIRBITS, Nat.shiftLeft_eq,
    Nat.zero_add, Nat.pow_zero, Nat.mul_one]
  rw [Nat.mod_eq_of_lt (a := dir * 2 ^ (8 + 8 + 14)) (by norm_num; omega),
    Nat.mod_eq_of_lt (a := typ * 2 ^ 8) (by norm_num; omega),
    Nat.mod_eq_of_lt (a := nr) (by norm_num; omega),
    Nat.mod_eq_of_lt (a := size * 2 ^ (8 + 8)) (by norm_num; omega)]
  rw [Nat.lor_assoc (dir * 2 ^ (8 + 8 + 14)) (typ * 2 ^ 8) nr]
  rw [Nat.lor_assoc (dir * 2 ^ (8 + 8 + 14)) (typ * 2 ^ 8 ||| nr) (size * 2 ^ (8 + 8))]
  rw [Nat.lor_comm (typ * 2 ^ 8 ||| nr) (size * 2 ^ (8 + 8))]
  rw [Nat.mul_comm typ (2 ^ 8), ← Nat.mul_add_lt_is_or hnr' typ]
  rw [Nat.mul_comm size (2 ^ (8 + 8)),
    (by norm_num : (2 : Nat) ^ (8 + 8) = 2 ^ 16),
    ← Nat.mul_add_lt_is_or hS size]
  rw [Nat.mul_comm dir (2 ^ (8 + 8 + 14)),
    (by norm_num : (2 : Nat) ^ (8 + 8 + 14) = 2 ^ 30),
    ← Nat.mul_add_lt_is_or hD dir]

/-- Claim C1: for every direction `< 4`, typeMagic and number `< 256`,
and size `< 16384`, unpacking the packed request code returns exactly the
four packed fields: `IOC_DIR (IOC dir typ nr size) = dir`, and likewise
for `IOC_TYPE`, `IOC_NR` and `IOC_SIZE` (round-trip law). -/
theorem ioc_roundtrip (dir typ nr size : Nat)
    (hdir : dir < 4) (htyp : typ < 256) (hnr : nr < 256) (hsize : size < 16384) :
    IOC_DIR (IOC dir typ nr size) = dir ∧
    IOC_TYPE (IOC dir typ nr size) = typ ∧
    IOC_NR (IOC dir typ nr size) = nr ∧
    IOC_SIZE (IOC dir typ nr size) = size := by
  rw [IOC_DIR, IOC_TYPE, IOC_NR, IOC_SIZE, IOC_eval dir typ nr size hdir htyp hnr hsize]
  simp only [IOC_DIRSHIFT, IOC_SIZESHIFT, IOC_TYPESHIFT, IOC_NRSHIFT,
    IOC_NRBITS, IOC_TYPEBITS, IOC_SIZEBITS, IOC_DIRBITS, IOC_DIRMASK,
    IOC_TYPEMASK, IOC_NRMASK, IOC_SIZEMASK, Nat.shiftLeft_eq, Nat.one_mul,
    Nat.zero_add, Nat.shiftRight_eq_div_pow, Nat.and_pow_two_sub_one_eq_mod]
  refine ⟨?_, ?_, ?_, ?_⟩ <;> · norm_num; omega

/-- Witness for C1 at `(dir, typ, nr, size) = (2, 0x45, 0x20, 4)`. -/
theorem ioc_roundtrip_witness :
    IOC_DIR (IOC 2 0x45 0x20 4) = 2 ∧
    IOC_TYPE (IOC 2 0x45 0x20 4) = 0x45 ∧
    IOC_NR (IOC 2 0x45 0x20 4) = 0x20 ∧
    IOC_SIZE (IOC 2 0x45 0x20 4) = 4 :=
  ioc_roundtrip 2 0x45 0x20 4 (by decide) (by decide) (by decide) (by decide)

/-- Claim C3: the request code for the category-bitmask query with
category 0 and length 4 equals the value packed from
(direction = read, typeMagic = `'E'` = 0x45, number = 0x20, size = 4);
the fields occupy bits [0,8), [8,16), [16,30) and [30,32) respectively,
so the packed value is `0x20 ||| 0x45<<<8 ||| 4<<<16 ||| 2<<<30 = 0x80044520`. -/
theorem eviocgbit_value :
    EVIOCGBIT 0 4 = IOC IOC_READ 0x45 0x20 4 ∧
    IOC IOC_READ 0x45 0x20 4 =
      ((0x20 <<< 0) ||| (0x45 <<< 8) ||| (4 <<< 16) ||| (2 <<< 30)) ∧
    EVIOCGBIT 0 4 = 0x80044520 := by
  refine ⟨rfl, by decide, by decide⟩

/-! ### `linux/input` constants (from `doc.go` / the input package) -/

def EV_SYN : Nat := 0x00

def EV_KEY : Nat := 0x01

def EV_REL : Nat := 0x02

def EV_ABS : Nat := 0x03

def EV_MSC : Nat := 0x04

def EV_SW : Nat := 0x05

def EV_LED : Nat := 0x11

def EV_SND : Nat := 0x12

def EV_REP : Nat := 0x14

def EV_FF : Nat := 0x15

def EV_PWR : Nat := 0x16

def EV_FF_STATUS : Nat := 0x17

def EV_MAX : Nat := 0x1f

def EV_CNT : Nat := EV_MAX + 1

def SYN_MAX : Nat := 0x0f

def KEY_MAX : Nat := 0x2ff

def REL_MAX : Nat := 0x0f

def ABS_MAX : Nat := 0x3f

def MSC_MAX : Nat := 0x07

def SW_MAX : Nat := 0x11

def LED_MAX : Nat := 0x0f

def SND_MAX : Nat := 0x07

def REP_MAX : Nat := 0x01

def FF_MAX : Nat := 0x7f

def FF_STATUS_MAX : Nat := 0x01

/-- Go `func TestBit(b []byte, pos uint) bool`:
`b[pos/8]&(1<<(pos%8)) != 0`.  The Go slice index panics when
`pos/8` is out of range; that case is modelled by `none`. -/
def TestBit (b : List Nat) (pos : Nat) : Option Bool :=
  match b.get? (pos / 8) with
  | none => none
  | some byte => some (byte &&& (1 <<< (pos % 8)) != 0)

/-- Go `func MaxCodes(eventType mylib.InputEvent) (uint, bool)`: lookup in
the literal map from `EV_*` categories to `*_MAX` bounds; the `(0, false)`
miss case is `none`. -/
def MaxCodes (eventType : Nat) : Option Nat :=
  if eventType = EV_SYN then some SYN_MAX
  else if eventType = EV_KEY then some KEY_MAX
  else if eventType = EV_REL then some REL_MAX
  else if eventType = EV_ABS then some ABS_MAX
  else if eventType = EV_MSC then some MSC_MAX
  else if eventType = EV_SW then some SW_MAX
  else if eventType = EV_LED then some LED_MAX
  else if eventType = EV_SND then some SND_MAX
  else if eventType = EV_REP then some REP_MAX
  else if eventType = EV_FF then some FF_MAX
  else if eventType = EV_PWR then some 0
  else if eventType = EV_FF_STATUS then some FF_STATUS_MAX
  else none

/-- The code-collecting loop of `Device.Codes`
(`for code = range maxCodes + 1 { if !TestBit(buf, code) { continue }; ... }`),
over an explicit list of candidate codes.  `none` models the Go panic of an
out-of-range `TestBit` access. -/
def decodeBits (buf : List Nat) : List Nat → Option (List Nat)
  | [] => some []
  | c :: cs =>
    match TestBit buf c, decodeBits buf cs with
    | some b, some rest => some (if b then c :: rest else rest)
    | _, _ => none

/-- The event-collecting loop of `Device.Events`: like `decodeBits` but the
auto-repeat category `EV_REP` is skipped even when its bit is set. -/
def decodeEvents (buf : List Nat) : List Nat → Option (List Nat)
  | [] => some []
  | t :: ts =>
    match TestBit buf t, decodeEvents buf ts with
    | some b, some rest => some (if b && t != EV_REP then t :: rest else rest)
    | _, _ => none

/-- Outcome of a `Device` query: a Go runtime panic (out-of-range slice
index), an invalid-event-type error, an ioctl error, or a result. -/
inductive Outcome (α : Type) where
  | crash : Outcome α
  | invalidEventType : Outcome α
  | ioctlError : Outcome α
  | ok : α → Outcome α
deriving DecidableEq, Repr

/-- The kernel's response to `EVIOCGBIT(ev, len)`: either an errno
(`Except.error`) or the bytes written into the caller's buffer. -/
def Kernel : Type := Nat → Nat → Except Unit (List Nat)

/-- Go `func (dev *Device) Events() ([]mylib.InputEvent, error)`:
allocates `(EV_MAX+7)/8` bytes, takes `&buf[0]` (panics if empty), issues
`EVIOCGBIT(0, len(buf))`, then collects every set bit except `EV_REP`.
The second component records the issued ioctl requests as
`(request code, buffer length)` pairs. -/
def Events (kernel : Kernel) : Outcome (List Nat) × List (Nat × Nat) :=
  if (EV_MAX + 7) / 8 = 0 then (.crash, [])
  else
    match kernel 0 ((EV_MAX + 7) / 8) with
    | .error _ => (.ioctlError, [(EVIOCGBIT 0 ((EV_MAX + 7) / 8), (EV_MAX + 7) / 8)])
    | .ok buf =>
      match decodeEvents buf (List.range EV_CNT) with
      | none => (.crash, [(EVIOCGBIT 0 ((EV_MAX + 7) / 8), (EV_MAX + 7) / 8)])
      | some evs => (.ok evs, [(EVIOCGBIT 0 ((EV_MAX + 7) / 8), (EV_MAX + 7) / 8)])

/-- Go `func (dev *Device) Codes(eventType mylib.InputEvent) ([]mylib.InputCode, error)`:
looks up `MaxCodes`, allocates `(maxCodes+7)/8` bytes, takes `&buf[0]`
(panics if the buffer is empty), issues `EVIOCGBIT(eventType, len(buf))`,
then collects every set bit in `0..maxCodes`.  The second component
records the issued ioctl requests as `(request code, buffer length)`. -/
def Codes (kernel : Kernel) (eventType : Nat) : Outcome (List Nat) × List (Nat × Nat) :=
  match MaxCodes eventType with
  | none => (.invalidEventType, [])
  | some maxCodes =>
    if (maxCodes + 7) / 8 = 0 then (.crash, [])
    else
      match kernel eventType ((maxCodes + 7) / 8) with
      | .error _ =>
        (.ioctlError, [(EVIOCGBIT eventType ((maxCodes + 7) / 8), (maxCodes + 7) / 8)])
      | .ok buf =>
        match decodeBits buf (List.range (maxCodes + 1)) with
        | none =>
          (.crash, [(EVIOCGBIT eventType ((maxCodes + 7) / 8), (maxCodes + 7) / 8)])
        | some codes =>
          (.ok codes, [(EVIOCGBIT eventType ((maxCodes + 7) / 8), (maxCodes + 7) / 8)])

/-! ### Bit-decoding lemmas -/

theorem TestBit_eq_testBit (b : List Nat) (i : Nat) (h : i / 8 < b.length) :
    TestBit b i = some (Nat.testBit (b.get ⟨i / 8, h⟩) (i % 8)) := by
  unfold TestBit
  rw [List.get?_eq_get h]
  show some (b.get ⟨i / 8, h⟩ &&& (1 <<< (i % 8)) != 0) = _
  congr 1
  generalize b.get ⟨i / 8, h⟩ = byte
  rw [Nat.shiftLeft_eq, Nat.one_mul, Nat.and_two_pow]
  cases hbit : Nat.testBit byte (i % 8) <;> simp [hbit]

theorem decodeBits_eq_filter (buf : List Nat) (l : List Nat)
    (h : ∀ c ∈ l, c / 8 < buf.length) :
    decodeBits buf l = some (l.filter fun t => decide (TestBit buf t = some true)) := by
  induction l with
  | nil => rfl
  | cons c cs ih =>
    have hc : c / 8 < buf.length := h c (List.mem_cons_self c cs)
    have hcs := ih fun x hx => h x (List.mem_cons_of_mem c hx)
    have htb : TestBit buf c = some (Nat.testBit buf[c / 8] (c % 8)) := by
      rw [TestBit_eq_testBit buf c hc]
      simp [List.get_eq_getElem]
    rw [decodeBits, hcs, htb, List.filter_cons]
    cases hbit : Nat.testBit buf[c / 8] (c % 8) <;> simp [htb, hbit]

theorem decodeEvents_eq_filter (buf : List Nat) (l : List Nat)
    (h : ∀ t ∈ l, t / 8 < buf.length) :
    decodeEvents buf l =
      some (l.filter fun t => decide (TestBit buf t = some true) && (t != EV_REP)) := by
  induction l with
  | nil => rfl
  | cons c cs ih =>
    have hc : c / 8 < buf.length := h c (List.mem_cons_self c cs)
    have hcs := ih fun x hx => h x (List.mem_cons_of_mem c hx)
    have htb : TestBit buf c = some (Nat.testBit buf[c / 8] (c % 8)) := by
      rw [TestBit_eq_testBit buf c hc]
      simp [List.get_eq_getElem]
    rw [decodeEvents, hcs, htb, List.filter_cons]
    cases hbit : Nat.testBit buf[c / 8] (c % 8) <;> simp [htb, hbit]

/-- Claim C4: bitmask decoding follows the kernel bit-within-byte
convention: bit `i` is read from byte `i / 8` at bit position `i % 8`
(whenever `i / 8` is in bounds); decoding an all-zero buffer yields the
empty set, and decoding an all-ones buffer of length
`ceil((maxIndex+1)/8)` yields exactly `{0..maxIndex}`. -/
theorem testbit_decode_spec :
    (∀ (b : List Nat) (i : Nat) (h : i / 8 < b.length),
        TestBit b i = some (Nat.testBit (b.get ⟨i / 8, h⟩) (i % 8))) ∧
    (∀ maxIndex : Nat,
        decodeBits (List.replicate ((maxIndex + 1 + 7) / 8) 0)
          (List.range (maxIndex + 1)) = some []) ∧
    (∀ maxIndex : Nat,
        decodeBits (List.replicate ((maxIndex + 1 + 7) / 8) 255)
          (List.range (maxIndex + 1)) = some (List.range (maxIndex + 1))) := by
  refine ⟨TestBit_eq_testBit, ?_, ?_⟩
  · intro m
    have h : ∀ c ∈ List.range (m + 1),
        c / 8 < (List.replicate ((m + 1 + 7) / 8) (0 : Nat)).length := by
      intro c hc
      simp only [List.mem_range] at hc
      simp only [List.length_replicate]
      omega
    rw [decodeBits_eq_filter _ _ h]
    congr 1
    rw [List.filter_eq_nil_iff]
    intro t ht
    simp only [List.mem_range] at ht
    have h' : t / 8 < (List.replicate ((m + 1 + 7) / 8) (0 : Nat)).length := by
      simp only [List.length_replicate]; omega
    rw [TestBit_eq_testBit _ _ h']
    simp [List.get_eq_getElem, List.getElem_replicate]
  · intro m
    have h : ∀ c ∈ List.range (m + 1),
        c / 8 < (List.replicate ((m + 1 + 7) / 8) (255 : Nat)).length := by
      intro c hc
      simp only [List.mem_range] at hc
      simp only [List.length_replicate]
      omega
    rw [decodeBits_eq_filter _ _ h]
    congr 1
    rw [List.filter_eq_self]
    intro t ht
    simp only [List.mem_range] at ht
    have h' : t / 8 < (List.replicate ((m + 1 + 7) / 8) (255 : Nat)).length := by
      simp only [List.length_replicate]; omega
    rw [TestBit_eq_testBit _ _ h']
    have h255 : (255 : Nat) = 2 ^ 8 - 1 := by norm_num
    simp only [List.get_eq_getElem, List.getElem_replicate, h255,
      Nat.testBit_two_pow_sub_one]
    simp [Nat.mod_lt]

/-- Witness for C4: bit 1 of byte `6 = 0b110`, an all-zero buffer for
`maxIndex = 9`, and an all-ones buffer for `maxIndex = 9`. -/
theorem testbit_decode_spec_witness :
    TestBit [6] 1 = some true ∧
    decodeBits (List.replicate 2 0) (List.range 10) = some [] ∧
    decodeBits (List.replicate 2 255) (List.range 10) = some (List.range 10) := by
  refine ⟨?_, ?_, ?_⟩
  · rw [testbit_decode_spec.1 [6] 1 (by decide)]
    decide
  · have h := testbit_decode_spec.2.1 9
    simpa using h
  · have h := testbit_decode_spec.2.2 9
    simpa using h

/-- Claim C6: for every kernel-returned category bitmask buffer, the list
returned by `Events` never contains the auto-repeat category `EV_REP`,
even when bit `EV_REP` is set in the raw buffer; every other category in
`[0, EV_MAX]` appears exactly when its bit is set. -/
theorem events_spec (kernel : Kernel) (buf : List Nat)
    (hk : kernel 0 ((EV_MAX + 7) / 8) = .ok buf)
    (hlen : buf.length = (EV_MAX + 7) / 8) :
    ∃ evs,
      Events kernel = (.ok evs, [(EVIOCGBIT 0 ((EV_MAX + 7) / 8), (EV_MAX + 7) / 8)]) ∧
      EV_REP ∉ evs ∧
      ∀ t, t ∈ evs ↔ (t < EV_CNT ∧ TestBit buf t = some true ∧ t ≠ EV_REP) := by
  have hb : ∀ t ∈ List.range EV_CNT, t / 8 < buf.length := by
    intro t ht
    simp only [List.mem_range, EV_CNT, EV_MAX] at ht
    rw [hlen]
    simp only [EV_MAX]
    omega
  have hdec := decodeEvents_eq_filter buf (List.range EV_CNT) hb
  refine ⟨(List.range EV_CNT).filter
    (fun t => decide (TestBit buf t = some true) && (t != EV_REP)), ?_, ?_, ?_⟩
  · simp only [Events, hk, hdec]
    rw [if_neg (by decide : ¬((EV_MAX + 7) / 8 = 0))]
  · simp [List.mem_filter]
  · intro t
    simp only [List.mem_filter, List.mem_range, Bool.and_eq_true, decide_eq_true_eq,
      bne_iff_ne, ne_eq]

/-- Witness for C6 with an all-ones 4-byte kernel buffer. -/
theorem events_spec_witness :
    ∃ evs,
      Events (fun _ _ => Except.ok [255, 255, 255, 255]) =
        (.ok evs, [(EVIOCGBIT 0 ((EV_MAX + 7) / 8), (EV_MAX + 7) / 8)]) ∧
      EV_REP ∉ evs ∧
      ∀ t, t ∈ evs ↔
        (t < EV_CNT ∧ TestBit [255, 255, 255, 255] t = some true ∧ t ≠ EV_REP) :=
  events_spec (fun _ _ => Except.ok [255, 255, 255, 255]) [255, 255, 255, 255] rfl (by decide)

theorem codes_fst_ne_invalid (kernel : Kernel) (t m : Nat) (hM : MaxCodes t = some m) :
    (Codes kernel t).1 ≠ Outcome.invalidEventType := by
  simp only [Codes, hM]
  split_ifs with h
  · simp
  · rcases hk : kernel t ((m + 7) / 8) with e | buf
    · simp [hk]
    · simp only [hk]
      rcases hd : decodeBits buf (List.range (m + 1)) with _ | codes <;> simp [hd]

theorem codes_ok_of (kernel : Kernel) (t m : Nat) (buf : List Nat)
    (hM : MaxCodes t = some m) (hm : m / 8 < (m + 7) / 8)
    (hk : kernel t ((m + 7) / 8) = .ok buf) (hlen : buf.length = (m + 7) / 8) :
    Codes kernel t =
      (Outcome.ok ((List.range (m + 1)).filter fun c => decide (TestBit buf c = some true)),
       [(EVIOCGBIT t ((m + 7) / 8), (m + 7) / 8)]) := by
  have hne : (m + 7) / 8 ≠ 0 := by omega
  have hin : ∀ c ∈ List.range (m + 1), c / 8 < buf.length := by
    intro c hc
    simp only [List.mem_range] at hc
    rw [hlen]
    omega
  simp only [Codes, hM]
  rw [if_neg hne]
  simp only [hk, decodeBits_eq_filter buf _ hin]

/-- Claim C7: `Codes` fails with the invalid-event-type error — returning
no partial result and issuing no ioctl — if and only if the event type is
absent from the fixed bound table of twelve categories; presence with
maximum 0 (`EV_PWR`) is not treated as absence. -/
theorem codes_invalid_spec (kernel : Kernel) (t : Nat) :
    ((Codes kernel t).1 = Outcome.invalidEventType ↔ MaxCodes t = none) ∧
    (MaxCodes t = none ↔
      t ∉ ([EV_SYN, EV_KEY, EV_REL, EV_ABS, EV_MSC, EV_SW, EV_LED, EV_SND,
            EV_REP, EV_FF, EV_PWR, EV_FF_STATUS] : List Nat)) ∧
    (MaxCodes t = none → Codes kernel t = (Outcome.invalidEventType, [])) ∧
    MaxCodes EV_PWR = some 0 ∧
    (Codes kernel EV_PWR).1 ≠ Outcome.invalidEventType := by
  refine ⟨?_, ?_, ?_, by decide, codes_fst_ne_invalid kernel EV_PWR 0 (by decide)⟩
  · cases hM : MaxCodes t with
    | none => simp [Codes, hM]
    | some m => simpa [hM] using codes_fst_ne_invalid kernel t m hM
  · constructor
    · intro hnone hmem
      simp only [List.mem_cons, List.not_mem_nil, or_false] at hmem
      rcases hmem with h | h | h | h | h | h | h | h | h | h | h | h <;> subst h <;>
        revert hnone <;> decide
    · intro hnot
      have h1 : t ≠ EV_SYN := fun h => hnot (by simp [h])
      have h2 : t ≠ EV_KEY := fun h => hnot (by simp [h])
      have h3 : t ≠ EV_REL := fun h => hnot (by simp [h])
      have h4 : t ≠ EV_ABS := fun h => hnot (by simp [h])
      have h5 : t ≠ EV_MSC := fun h => hnot (by simp [h])
      have h6 : t ≠ EV_SW := fun h => hnot (by simp [h])
      have h7 : t ≠ EV_LED := fun h => hnot (by simp [h])
      have h8 : t ≠ EV_SND := fun h => hnot (by simp [h])
      have h9 : t ≠ EV_REP := fun h => hnot (by simp [h])
      have h10 : t ≠ EV_FF := fun h => hnot (by simp [h])
      have h11 : t ≠ EV_PWR := fun h => hnot (by simp [h])
      have h12 : t ≠ EV_FF_STATUS := fun h => hnot (by simp [h])
      rw [MaxCodes, if_neg h1, if_neg h2, if_neg h3, if_neg h4, if_neg h5,
        if_neg h6, if_neg h7, if_neg h8, if_neg h9, if_neg h10, if_neg h11,
        if_neg h12]
  · intro hM
    simp [Codes, hM]

/-- Witness for C7 at event type 6, which is absent from the bound table. -/
theorem codes_invalid_witness :
    Codes (fun _ _ => Except.error ()) 6 = (Outcome.invalidEventType, []) :=
  (codes_invalid_spec (fun _ _ => Except.error ()) 6).2.2.1 (by decide)

/-- Claim C2 (refuted at `EV_PWR`): the bound table maps `EV_PWR` to 0,
for which the code allocates `(0+7)/8 = 0` bytes — not the
`ceil((0+1)/8) = 1` bytes the claim requires — and panics at `&buf[0]`
before issuing any ioctl.  For the keys category the claim holds: the
buffer is exactly `(KEY_MAX+7)/8 = 96` bytes and the request is
`EVIOCGBIT(EV_KEY, 96)`. -/
theorem codes_buffer_size :
    MaxCodes EV_PWR = some 0 ∧ (0 + 7) / 8 = 0 ∧
    (∀ kernel : Kernel, Codes kernel EV_PWR = (Outcome.crash, [])) ∧
    MaxCodes EV_KEY = some KEY_MAX ∧ (KEY_MAX + 7) / 8 = 96 ∧
    (∀ kernel : Kernel, (Codes kernel EV_KEY).2 = [(EVIOCGBIT EV_KEY 96, 96)]) := by
  refine ⟨by decide, by decide, ?_, by decide, by decide, ?_⟩
  · intro kernel
    have hPWR : MaxCodes EV_PWR = some 0 := by decide
    unfold Codes
    rw [hPWR]
    rfl
  · intro kernel
    have hMK : MaxCodes EV_KEY = some KEY_MAX := by decide
    have h96 : (KEY_MAX + 7) / 8 = 96 := by decide
    simp only [Codes, hMK, h96]
    rw [if_neg (by decide : ¬(96 = 0))]
    rcases hk : kernel EV_KEY 96 with e | buf
    · simp only [hk]
    · simp only [hk]
      rcases hd : decodeBits buf (List.range (KEY_MAX + 1)) with _ | codes <;>
        simp only [hd]

/-- Claim C5 (refuted at `EV_PWR`): `Codes` panics on `EV_PWR` — the
zero-length buffer makes `&buf[0]` an out-of-range access — for every
kernel behaviour; for every other category of the bound table, a
well-formed kernel response is decoded fully in bounds and a result is
returned without a panic. -/
theorem codes_panic_spec :
    (∀ kernel : Kernel, (Codes kernel EV_PWR).1 = Outcome.crash) ∧
    (∀ (kernel : Kernel) (t m : Nat) (buf : List Nat),
      MaxCodes t = some m → t ≠ EV_PWR →
      kernel t ((m + 7) / 8) = .ok buf → buf.length = (m + 7) / 8 →
      ∃ codes,
        Codes kernel t =
          (Outcome.ok codes, [(EVIOCGBIT t ((m + 7) / 8), (m + 7) / 8)])) := by
  constructor
  · intro kernel
    have hPWR : MaxCodes EV_PWR = some 0 := by decide
    unfold Codes
    rw [hPWR]
    rfl
  · intro kernel t m buf hM ht hk hlen
    have hm : m / 8 < (m + 7) / 8 := by
      rw [MaxCodes] at hM
      by_cases h1 : t = EV_SYN
      · rw [if_pos h1] at hM; rw [← Option.some.inj hM]; decide
      rw [if_neg h1] at hM
      by_cases h2 : t = EV_KEY
      · rw [if_pos h2] at hM; rw [← Option.some.inj hM]; decide
      rw [if_neg h2] at hM
      by_cases h3 : t = EV_REL
      · rw [if_pos h3] at hM; rw [← Option.some.inj hM]; decide
      rw [if_neg h3] at hM
      by_cases h4 : t = EV_ABS
      · rw [if_pos h4] at hM; rw [← Option.some.inj hM]; decide
      rw [if_neg h4] at hM
      by_cases h5 : t = EV_MSC
      · rw [if_pos h5] at hM; rw [← Option.some.inj hM]; decide
      rw [if_neg h5] at hM
      by_cases h6 : t = EV_SW
      · rw [if_pos h6] at hM; rw [← Option.some.inj hM]; decide
      rw [if_neg h6] at hM
      by_cases h7 : t = EV_LED
      · rw [if_pos h7] at hM; rw [← Option.some.inj hM]; decide
      rw [if_neg h7] at hM
      by_cases h8 : t = EV_SND
      · rw [if_pos h8] at hM; rw [← Option.some.inj hM]; decide
      rw [if_neg h8] at hM
      by_cases h9 : t = EV_REP
      · rw [if_pos h9] at hM; rw [← Option.some.inj hM]; decide
      rw [if_neg h9] at hM
      by_cases h10 : t = EV_FF
      · rw [if_pos h10] at hM; rw [← Option.some.inj hM]; decide
      rw [if_neg h10] at hM
      rw [if_neg ht] at hM
      by_cases h12 : t = EV_FF_STATUS
      · rw [if_pos h12] at hM; rw [← Option.some.inj hM]; decide
      rw [if_neg h12] at hM
      exact absurd hM (by simp)
    exact ⟨_, codes_ok_of kernel t m buf hM hm hk hlen⟩

/-- Witness for C5: an all-ones kernel response for the keys category is
decoded without a panic. -/
theorem codes_panic_witness :
    ∃ codes,
      Codes (fun _ n => Except.ok (List.replicate n 255)) EV_KEY =
        (Outcome.ok codes, [(EVIOCGBIT EV_KEY ((KEY_MAX + 7) / 8), (KEY_MAX + 7) / 8)]) :=
  codes_panic_spec.2 (fun _ n => Except.ok (List.replicate n 255)) EV_KEY KEY_MAX
    (List.replicate ((KEY_MAX + 7) / 8) 255) (by decide) (by decide) rfl (by simp)

/-! ### Device identity (`Device.ID`, struct `ID` from `h.go`) -/

/-- Go `type ID struct`: `Bustype`, `Vendor`, `Product`, `Version`, each a
`uint16` (modelled as `Nat`, values below `2 ^ 16` by construction). -/
structure ID where
  bustype : Nat
  vendor : Nat
  product : Nat
  version : Nat
deriving DecidableEq, Repr

/-- Modelled from the spec: the `EVIOCGID` ioctl makes the kernel write the
8-byte identity payload directly into the `ID` struct's memory — four
consecutive little-endian u16 fields in the order bustype, vendor, product,
version (spec section 6, "Kernel ABI (wire format)").  This memory copy has
no Go source of its own; buffers of any other length are rejected here. -/
def decodeID (b : List Nat) : Option ID :=
  match b with
  | [b0, b1, b2, b3, b4, b5, b6, b7] =>
    some ⟨b0 + 256 * b1, b2 + 256 * b3, b4 + 256 * b5, b6 + 256 * b7⟩
  | _ => none

/-- Modelled from the spec: Go's `%x` verb (the `fmt` package is outside
this repository) renders a number as lowercase hexadecimal with no leading
zeros, which is what `Nat.toDigits 16` produces. -/
def goHex (n : Nat) : String :=
  String.mk (Nat.toDigits 16 n)

/-- The format of `Device.ID`:
`fmt.Sprintf("bus 0x%x vendor 0x%x product 0x%x version 0x%x", ...)` applied
to the four fields in order. -/
def idString (i : ID) : String :=
  "bus 0x" ++ goHex i.bustype ++ " vendor 0x" ++ goHex i.vendor ++
  " product 0x" ++ goHex i.product ++ " version 0x" ++ goHex i.version

/-- Claim C8: the identity payload is decoded as four consecutive
little-endian u16 fields in the order bustype, vendor, product, version:
bytes `{03 00, 6d 04, 8e c2, 11 01}` decode to bustype 3, vendor 0x046d,
product 0xc28e, version 0x0111, and `Device.ID` formats this identity as
`"bus 0x3 vendor 0x46d product 0xc28e version 0x111"`. -/
theorem identity_decode :
    decodeID [0x03, 0x00, 0x6d, 0x04, 0x8e, 0xc2, 0x11, 0x01] =
      some ⟨0x3, 0x46d, 0xc28e, 0x111⟩ ∧
    idString ⟨0x3, 0x46d, 0xc28e, 0x111⟩ =
      "bus 0x3 vendor 0x46d product 0xc28e version 0x111" := by
  constructor
  · rfl
  · rfl

/-! ### Opening devices (`NewDevice`, `Devices` from `device.go`) -/

/-- The OS error taxonomy relevant to opening a device node. -/
inductive OSError where
  | notFound : OSError
  | permissionDenied : OSError
  | other : OSError
deriving DecidableEq, Repr

/-- A Go error value: either a raw OS error or a wrapped error produced by
`fmt.Errorf("<op>: %w", err)`. -/
inductive GoErr where
  | os : OSError → GoErr
  | wrap : String → GoErr → GoErr
deriving DecidableEq, Repr

/-- Go `errors.Is`: classification looks through every `%w` wrapping layer. -/
def GoErr.is : GoErr → OSError → Bool
  | .os e, target => e == target
  | .wrap _ err, target => err.is target

/-- An open Go file handle, remembering the (cleaned) name it was opened
with and the access flags passed to `os.OpenFile`. -/
structure GoFile where
  name : String
  flags : Nat
deriving DecidableEq, Repr

/-- Go `os.O_RDWR` (`syscall.O_RDWR` on Linux). -/
def O_RDWR : Nat := 2

/-- Modelled from the spec: `os.OpenFile(name, flag, perm)` — Go standard
library, outside this repository — opens the node or reports the OS error
(`NotFound` for a missing node, spec section 7); on success the handle's
descriptor carries the requested access flags.  The filesystem is the
oracle `fs`. -/
def osOpenFile (fs : String → Except OSError Unit) (name : String) (flag : Nat) :
    Except OSError GoFile :=
  match fs name with
  | .error e => .error e
  | .ok _ => .ok ⟨name, flag⟩

/-- Go `type Device struct { file *os.File; fd uintptr }`, reduced to the
open file handle. -/
structure Device where
  file : GoFile
deriving DecidableEq, Repr

/-- Go `func NewDevice(path string) (*Device, error)`:
`os.OpenFile(filepath.Clean(path), os.O_RDWR, 0)`; an open error is
returned as `fmt.Errorf("input.NewDevice: %w", err)` with no device.
`filepath.Clean` (Go standard library) is the oracle `clean`. -/
def NewDevice (clean : String → String) (fs : String → Except OSError Unit)
    (path : String) : Except GoErr Device :=
  match osOpenFile fs (clean path) O_RDWR with
  | .error err => .error (.wrap "input.NewDevice" (.os err))
  | .ok file => .ok ⟨file⟩

/-- The loop of `Devices`: open each globbed path in order; the first
failure aborts the whole call with `fmt.Errorf("input.Devices: %w", err)`
and no devices. -/
def devicesLoop (clean : String → String) (fs : String → Except OSError Unit) :
    List String → Except GoErr (List Device)
  | [] => .ok []
  | path :: paths =>
    match NewDevice clean fs path with
    | .error err => .error (.wrap "input.Devices" err)
    | .ok device =>
      match devicesLoop clean fs paths with
      | .error err => .error err
      | .ok devices => .ok (device :: devices)

/-- Go `func Devices() ([]*Device, error)`: globs `/dev/input/event*`
(the glob result is the oracle argument), then opens every matched path
with `NewDevice`; a glob failure or any single open failure is wrapped as
`input.Devices: %w` and no devices are returned. -/
def Devices (clean : String → String) (fs : String → Except OSError Unit)
    (glob : Except OSError (List String)) : Except GoErr (List Device) :=
  match glob with
  | .error err => .error (.wrap "input.Devices" (.os err))
  | .ok paths => devicesLoop clean fs paths

/-- Claim C9: `NewDevice` on a nonexistent path returns an error that
`errors.Is` classifies as NotFound; in every error case no device handle
is returned; and on success the handle's descriptor was opened with
read-write access on the cleaned path. -/
theorem newDevice_spec (clean : String → String)
    (fs : String → Except OSError Unit) (path : String) :
    (fs (clean path) = .error .notFound →
      NewDevice clean fs path = .error (.wrap "input.NewDevice" (.os .notFound)) ∧
      (GoErr.wrap "input.NewDevice" (.os .notFound)).is .notFound = true) ∧
    (∀ e, fs (clean path) = .error e → ∀ dev, NewDevice clean fs path ≠ .ok dev) ∧
    (∀ dev, NewDevice clean fs path = .ok dev →
      dev.file.flags = O_RDWR ∧ dev.file.name = clean path) := by
  refine ⟨?_, ?_, ?_⟩
  · intro hfs
    exact ⟨by simp [NewDevice, osOpenFile, hfs], rfl⟩
  · intro e hfs dev
    simp [NewDevice, osOpenFile, hfs]
  · intro dev hdev
    cases hfs : fs (clean path) with
    | error e => simp [NewDevice, osOpenFile, hfs] at hdev
    | ok u =>
      simp [NewDevice, osOpenFile, hfs] at hdev
      rw [← hdev]
      exact ⟨rfl, rfl⟩

/-- Witness for C9: a filesystem with no nodes at all. -/
theorem newDevice_witness :
    NewDevice id (fun _ => Except.error OSError.notFound) "/dev/input/event0" =
      .error (.wrap "input.NewDevice" (.os .notFound)) ∧
    (GoErr.wrap "input.NewDevice" (.os .notFound)).is .notFound = true :=
  (newDevice_spec id (fun _ => Except.error OSError.notFound) "/dev/input/event0").1 rfl

theorem devicesLoop_error (clean : String → String)
    (fs : String → Except OSError Unit) (paths : List String) :
    (∃ p ∈ paths, ∃ e, fs (clean p) = .error e) →
    ∃ err, devicesLoop clean fs paths = .error err := by
  induction paths with
  | nil => intro h; simp at h
  | cons q qs ih =>
    intro h
    cases hfq : fs (clean q) with
    | error e =>
      exact ⟨GoErr.wrap "input.Devices" (.wrap "input.NewDevice" (.os e)),
        by simp [devicesLoop, NewDevice, osOpenFile, hfq]⟩
    | ok u =>
      have hqs : ∃ p ∈ qs, ∃ e, fs (clean p) = .error e := by
        rcases h with ⟨p, hp, e, he⟩
        rcases List.mem_cons.mp hp with rfl | hp'
        · rw [hfq] at he
          exact absurd he (by simp)
        · exact ⟨p, hp', e, he⟩
      rcases ih hqs with ⟨err, herr⟩
      exact ⟨err, by simp [devicesLoop, NewDevice, osOpenFile, hfq, herr]⟩

theorem devicesLoop_ok (clean : String → String)
    (fs : String → Except OSError Unit) (paths : List String) :
    (∀ p ∈ paths, fs (clean p) = .ok ()) →
    devicesLoop clean fs paths =
      .ok (paths.map fun p => ⟨⟨clean p, O_RDWR⟩⟩) := by
  induction paths with
  | nil => intro _; rfl
  | cons q qs ih =>
    intro h
    have hq : fs (clean q) = .ok () := h q (List.mem_cons_self q qs)
    have hqs := ih fun p hp => h p (List.mem_cons_of_mem q hp)
    simp [devicesLoop, NewDevice, osOpenFile, hq, hqs]

/-- Claim C10: `Devices` is all-or-nothing: if opening any single matched
path fails, the whole call returns an error and no device list; if every
open succeeds, it returns one handle per matched path in enumeration
order; a glob error likewise fails the whole call. -/
theorem devices_all_or_nothing (clean : String → String)
    (fs : String → Except OSError Unit) (paths : List String) :
    ((∃ p ∈ paths, ∃ e, fs (clean p) = .error e) →
      ∃ err, Devices clean fs (.ok paths) = .error err) ∧
    ((∀ p ∈ paths, fs (clean p) = .ok ()) →
      Devices clean fs (.ok paths) =
        .ok (paths.map fun p => ⟨⟨clean p, O_RDWR⟩⟩)) ∧
    (∀ e, Devices clean fs (.error e) = .error (.wrap "input.Devices" (.os e))) :=
  ⟨fun h => devicesLoop_error clean fs paths h,
   fun h => devicesLoop_ok clean fs paths h,
   fun _ => rfl⟩

/-- Witness for C10: one failing path aborts discovery; with no failures
every path yields a handle in order. -/
theorem devices_witness :
    (∃ err,
      Devices id
        (fun p => if p = "/dev/input/event1" then Except.error OSError.permissionDenied
          else Except.ok ())
        (.ok ["/dev/input/event0", "/dev/input/event1"]) = .error err) ∧
    Devices id (fun _ => Except.ok ()) (.ok ["/dev/input/event0"]) =
      .ok [⟨⟨"/dev/input/event0", O_RDWR⟩⟩] := by
  constructor
  · exact (devices_all_or_nothing id _ _).1
      ⟨"/dev/input/event1", by simp, OSError.permissionDenied, by simp⟩
  · exact (devices_all_or_nothing id _ _).2.1 fun p hp => rfl

end Mylib
